import Mathlib

/-!
Verification of the USFM backslash-tag markup parser (src/peg.py).

The source defines a TatSu PEG grammar:

  start          =  document $ ;
  document       =  {element}* ;
  element        =  tag_start [text] {(inline_element [text])}* [text] ;
  inline_element =  element [attributes] tag_end ;
  tag_start      =  backslash tag_id ws ;
  tag_end        =  backslash [tag_id] "*" ;
  attributes     =  [(pipe {pair}*)] ;
  pair           =  key [("=" value)] ;
  key            =  tag_id ;
  value          =  /"[^\"]*"/ ;
  text           =  /[^\\|]*/ ;
  ws             =  /\s*/ ;
  tag_id         =  /[A-Za-z][A-Za-z0-9-]*/ ;
  backslash      =  "\\" ;
  pipe           =  "|" ;

The embedding below is a recursive-descent PEG parser over `List Char`,
suffix-passing style, mirroring TatSu's semantics for the constructs used:

* whitespace (Python regex \s, ASCII) is skipped before every literal token
  and at every rule invocation, hence before each pattern appearing as a
  rule body (tag_id, value, text, ws);
* optionals and closures are speculative: on failure they reset the input
  position and contribute zero occurrences, never a hard error;
* a sequence commits to its parts in order: if a later part fails the whole
  sequence fails (no re-splitting of earlier optional parts);
* the end-of-input check of `start` skips whitespace first.

Modelled from the spec: the reported error position.  The grammar rules in
src/peg.py say nothing about diagnostics; the error machinery lives in the
external tatsu library.  Spec section 4.7 fixes the contract: the parser
reports "the furthest position reached before no production could continue
(standard PEG furthest-failure diagnostic) — this is the only diagnostic
contract to reproduce".  Each parsing function therefore threads the least
remaining-suffix length observed at any failure (least remaining = furthest
absolute offset); the entry point converts it to an absolute offset.
-/

namespace UsfmPeg

/-- Whitespace test, the full class of Python regex \s on str (Unicode):
tab through carriage return (9-13), the separators 28-31, space (32),
next line (U+0085), no-break space (U+00A0), ogham space mark (U+1680),
the en-quad..hair-space block (U+2000-U+200A), line and paragraph
separators (U+2028, U+2029), narrow no-break space (U+202F), medium
mathematical space (U+205F) and ideographic space (U+3000). -/
def isWsChar (c : Char) : Bool :=
  (decide (9 ≤ c.toNat) && decide (c.toNat ≤ 13)) ||
  (decide (28 ≤ c.toNat) && decide (c.toNat ≤ 32)) ||
  c.toNat == 133 || c.toNat == 160 || c.toNat == 5760 ||
  (decide (8192 ≤ c.toNat) && decide (c.toNat ≤ 8202)) ||
  c.toNat == 8232 || c.toNat == 8233 || c.toNat == 8239 ||
  c.toNat == 8287 || c.toNat == 12288

/-- Character class [A-Za-z] of the tag_id pattern (ASCII codes 65-90, 97-122). -/
def isAlphaChar (c : Char) : Bool :=
  (decide (65 ≤ c.toNat) && decide (c.toNat ≤ 90)) ||
  (decide (97 ≤ c.toNat) && decide (c.toNat ≤ 122))

/-- Character class [A-Za-z0-9-] of the tag_id pattern tail
(the hyphen is ASCII 45). -/
def isIdChar (c : Char) : Bool :=
  isAlphaChar c || (decide (48 ≤ c.toNat) && decide (c.toNat ≤ 57)) || c.toNat == 45

/-- Character class [^\\|] of the text pattern: anything but backslash
(ASCII 92) and pipe (ASCII 124). -/
def isTextChar (c : Char) : Bool :=
  !(c.toNat == 92 || c.toNat == 124)

/-- Character class [^"] of the value pattern body (the double quote is
ASCII 34). -/
def isValueChar (c : Char) : Bool :=
  !(c.toNat == 34)

/-- Skip leading whitespace, as TatSu's next_token does before tokens and
at rule invocation. -/
def skipWs (r : List Char) : List Char :=
  r.dropWhile isWsChar

/-- Merge two furthest-failure records (least remaining-suffix length wins,
being the furthest absolute position). -/
def fmin : Option Nat → Option Nat → Option Nat
  | none, b => b
  | some a, none => some a
  | some a, some b => some (min a b)

/-- Result of a fallible rule: furthest-failure record (remaining-suffix
length at the deepest failure seen, if any) and, on success, the parsed
value with the remaining input. -/
abbrev Res (α : Type) : Type := Option Nat × Option (α × List Char)

/-- Pair node of the data model: one attribute key with an optional
double-quoted value (spec section 3). -/
structure Pair : Type where
  key : String
  value : Option String

/-- Element node of the data model (spec section 3).  A child entry
(inner element, attributes, closing tag id, trailing text) is one
(inline_element [text]) group of the element rule; the inline element is
flattened into the first three components. -/
inductive Element : Type where
  | mk : String → String → List (Element × List Pair × Option String × String) →
      String → Element

/-- Inline element record: inner element, attributes, optional closing tag id. -/
abbrev Inline : Type := Element × List Pair × Option String

/-- Literal token rule (backslash, pipe, "=", "*"): skip whitespace, then
match one character. -/
def tokenP (c : Char) (r : List Char) : Res Unit :=
  match skipWs r with
  | [] => (some 0, none)
  | d :: t => if d = c then (none, some ((), t)) else (some (d :: t).length, none)

/-- Rule tag_id: skip whitespace (rule invocation), then greedily match
/[A-Za-z][A-Za-z0-9-]*/. -/
def tagIdP (r : List Char) : Res String :=
  match skipWs r with
  | [] => (some 0, none)
  | d :: t =>
    if isAlphaChar d then
      (none, some ((d :: t.takeWhile isIdChar).asString, t.dropWhile isIdChar))
    else (some (d :: t).length, none)

/-- Rule text: skip whitespace (rule invocation), then greedily match
/[^\\|]*/.  Total: it never fails and may capture the empty run. -/
def textP (r : List Char) : String × List Char :=
  (((skipWs r).takeWhile isTextChar).asString, (skipWs r).dropWhile isTextChar)

/-- Rule value: skip whitespace (rule invocation), then match /"[^"]*"/. -/
def valueP (r : List Char) : Res String :=
  match skipWs r with
  | '"' :: t =>
    match t.dropWhile isValueChar with
    | '"' :: u => (none, some ((t.takeWhile isValueChar).asString, u))
    | _ => (some (t.length + 1), none)
  | other => (some other.length, none)

/-- Rule tag_start = backslash tag_id ws: the trailing whitespace run is
consumed and discarded. -/
def tagStartP (r : List Char) : Res String :=
  match tokenP '\\' r with
  | (f, none) => (f, none)
  | (f, some (_, r1)) =>
    match tagIdP r1 with
    | (g, none) => (fmin f g, none)
    | (g, some (tg, r2)) => (fmin f g, some (tg, skipWs r2))

/-- Rule tag_end = backslash [tag_id] "*": the id is speculative; once it
matches, the following "*" is mandatory (no retry without the id). -/
def tagEndP (r : List Char) : Res (Option String) :=
  match tokenP '\\' r with
  | (f, none) => (f, none)
  | (f, some (_, r1)) =>
    match tagIdP r1 with
    | (g, some (tg, r2)) =>
      match tokenP '*' r2 with
      | (h, some (_, r3)) => (fmin f (fmin g h), some (some tg, r3))
      | (h, none) => (fmin f (fmin g h), none)
    | (g, none) =>
      match tokenP '*' r1 with
      | (h, some (_, r3)) => (fmin f (fmin g h), some (none, r3))
      | (h, none) => (fmin f (fmin g h), none)

/-- Rule pair = key [("=" value)]: the ("=" value) group is speculative:
if value fails after "=" was consumed, the group resets to just after the
key and the pair succeeds with no value. -/
def pairP (r : List Char) : Res Pair :=
  match tagIdP r with
  | (f, none) => (f, none)
  | (f, some (k, r1)) =>
    match tokenP '=' r1 with
    | (g, none) => (fmin f g, some (⟨k, none⟩, r1))
    | (g, some (_, r2)) =>
      match valueP r2 with
      | (h, some (v, r3)) => (fmin f (fmin g h), some (⟨k, some v⟩, r3))
      | (h, none) => (fmin f (fmin g h), some (⟨k, none⟩, r1))

/-- Closure {pair}*: repeat pair while it succeeds; never fails itself.
The fuel bounds the number of iterations (each pair consumes at least the
key's first character, so any fuel of at least the input length is exact). -/
def pairStarP : Nat → List Char → Option Nat × List Pair × List Char
  | 0, r => (none, [], r)
  | n + 1, r =>
    match pairP r with
    | (f, none) => (f, [], r)
    | (f, some (p, r1)) =>
      match pairStarP n r1 with
      | (g, ps, r2) => (fmin f g, p :: ps, r2)

/-- Rule attributes = [(pipe {pair}*)]: optional group; with no leading
pipe it succeeds as the empty list. -/
def attributesP (n : Nat) (r : List Char) : Option Nat × List Pair × List Char :=
  match tokenP '|' r with
  | (f, none) => (f, [], r)
  | (f, some (_, r1)) =>
    match pairStarP n r1 with
    | (g, ps, r2) => (fmin f g, ps, r2)

/-- Rule inline_element = element [attributes] tag_end, parameterised by the
element parser (for fuel-based recursion).  tag_end is mandatory: its
failure fails the whole inline_element. -/
def inlineP (elemP : List Char → Res Element) (n : Nat) (r : List Char) :
    Res Inline :=
  match elemP r with
  | (f, none) => (f, none)
  | (f, some (el, r1)) =>
    match attributesP n r1 with
    | (g, ats, r2) =>
      match tagEndP r2 with
      | (h, some (ct, r3)) => (fmin f (fmin g h), some ((el, ats, ct), r3))
      | (h, none) => (fmin f (fmin g h), none)

/-- Closure {(inline_element [text])}* inside element: repeat while the
inline element succeeds; the [text] after it is total. -/
def itemStarP (inP : List Char → Res Inline) :
    Nat → List Char → Option Nat × List (Element × List Pair × Option String × String) × List Char
  | 0, r => (none, [], r)
  | n + 1, r =>
    match inP r with
    | (f, none) => (f, [], r)
    | (f, some ((el, ats, ct), r1)) =>
      match textP r1 with
      | (t, r2) =>
        match itemStarP inP n r2 with
        | (g, items, r3) => (fmin f g, (el, ats, ct, t) :: items, r3)

/-- Rule element = tag_start [text] {(inline_element [text])}* [text].
The fuel bounds nesting depth and closure iterations; `parseP` supplies
fuel exceeding any depth reachable on its input. -/
def elementP : Nat → List Char → Res Element
  | 0, _ => (none, none)
  | n + 1, r =>
    match tagStartP r with
    | (f, none) => (f, none)
    | (f, some (tg, r1)) =>
      match textP r1 with
      | (lead, r2) =>
        match itemStarP (inlineP (elementP n) n) n r2 with
        | (g, items, r3) =>
          match textP r3 with
          | (fin, r4) => (fmin f g, some (.mk tg lead items fin, r4))

/-- Closure {element}* of the document rule. -/
def elemsStarP (elemP : List Char → Res Element) :
    Nat → List Char → Option Nat × List Element × List Char
  | 0, r => (none, [], r)
  | n + 1, r =>
    match elemP r with
    | (f, none) => (f, [], r)
    | (f, some (e, r1)) =>
      match elemsStarP elemP n r1 with
      | (g, es, r2) => (fmin f g, e :: es, r2)

/-- Run of the document rule on the whole input, with fuel that exceeds any
reachable nesting depth or iteration count (every nesting level and every
closure iteration consumes at least one character). -/
def docRunP (s : List Char) : Option Nat × List Element × List Char :=
  elemsStarP (elementP (s.length + 2)) (s.length + 2) s

/-- Entry point, rule start = document $ : parse the document, skip trailing
whitespace, and demand end of input.  On failure the reported offset is the
furthest failure position (input length minus the least remaining-suffix
length recorded at any failure). -/
def parseP (s : List Char) : Except Nat (List Element) :=
  match docRunP s with
  | (f, els, r1) =>
    match skipWs r1 with
    | [] => .ok els
    | d :: t =>
      .error (s.length - (match f with
        | none => (d :: t).length
        | some x => min x (d :: t).length))

/-- Offset at which the run of top-level elements ended (input length minus
the suffix left unconsumed by the document closure). -/
def docEndPos (s : List Char) : Nat :=
  s.length - (docRunP s).2.2.length

/-! ### Supporting lemmas about the lexical layer -/

theorem takeWhile_append_all {α : Type} (p : α → Bool) (l₁ l₂ : List α)
    (h : ∀ c ∈ l₁, p c = true) :
    (l₁ ++ l₂).takeWhile p = l₁ ++ l₂.takeWhile p := by
  induction l₁ with
  | nil => simp
  | cons c t ih =>
    have hc : p c = true := h c (List.mem_cons_self c t)
    simp [List.takeWhile_cons, hc, ih fun d hd => h d (List.mem_cons_of_mem c hd)]

theorem dropWhile_append_all {α : Type} (p : α → Bool) (l₁ l₂ : List α)
    (h : ∀ c ∈ l₁, p c = true) :
    (l₁ ++ l₂).dropWhile p = l₂.dropWhile p := by
  induction l₁ with
  | nil => simp
  | cons c t ih =>
    have hc : p c = true := h c (List.mem_cons_self c t)
    simp [List.dropWhile_cons, hc, ih fun d hd => h d (List.mem_cons_of_mem c hd)]

theorem takeWhile_of_all {α : Type} (p : α → Bool) (l : List α)
    (h : ∀ c ∈ l, p c = true) : l.takeWhile p = l := by
  have := takeWhile_append_all p l [] h
  simpa using this

theorem dropWhile_of_all {α : Type} (p : α → Bool) (l : List α)
    (h : ∀ c ∈ l, p c = true) : l.dropWhile p = [] := by
  have := dropWhile_append_all p l [] h
  simpa using this

theorem skipWs_of_head (r : List Char)
    (h : ∀ d, r.head? = some d → isWsChar d = false) : skipWs r = r := by
  cases r with
  | nil => rfl
  | cons d t =>
    have hd : isWsChar d = false := h d rfl
    simp [skipWs, List.dropWhile_cons, hd]

/-- Whitespace characters are text characters: they are neither backslash
nor pipe. -/
theorem ws_isText {c : Char} (h : isWsChar c = true) : isTextChar c = true := by
  unfold isWsChar at h
  unfold isTextChar
  simp only [Bool.or_eq_true, Bool.and_eq_true, decide_eq_true_eq, beq_iff_eq] at h
  simp only [Bool.not_eq_true', Bool.or_eq_false_iff, beq_eq_false_iff_ne, ne_eq]
  omega

/-- ASCII letters are not whitespace. -/
theorem alpha_not_ws {c : Char} (h : isAlphaChar c = true) : isWsChar c = false := by
  unfold isAlphaChar at h
  rw [← Bool.not_eq_true]
  intro hw
  unfold isWsChar at hw
  simp only [Bool.or_eq_true, Bool.and_eq_true, decide_eq_true_eq, beq_iff_eq] at h hw
  omega

/-! ### The text invariant: no text node contains a backslash or a pipe -/

/-- Text content check: every character is in the class [^\\|]. -/
def textOkB (t : String) : Bool :=
  t.data.all isTextChar

mutual

/-- Every text field of the element (leading, trailing of each child,
ending) is backslash- and pipe-free. -/
def elemTextOk (e : Element) : Bool :=
  match e with
  | .mk _ ld ch fin => textOkB ld && textOkB fin && childrenTextOk ch

/-- List version of `elemTextOk` over the children of an element. -/
def childrenTextOk (l : List (Element × List Pair × Option String × String)) : Bool :=
  match l with
  | [] => true
  | (el, _, _, t) :: rest => elemTextOk el && textOkB t && childrenTextOk rest

end

theorem mem_takeWhile_sat {α : Type} (p : α → Bool) :
    ∀ (l : List α) (a : α), a ∈ l.takeWhile p → p a = true := by
  intro l
  induction l with
  | nil => intro a ha; simp at ha
  | cons c t ih =>
    intro a ha
    rw [List.takeWhile_cons] at ha
    by_cases hc : p c = true
    · rw [if_pos hc] at ha
      rcases List.mem_cons.mp ha with rfl | ha'
      · exact hc
      · exact ih a ha'
    · rw [if_neg (by simpa using hc)] at ha
      simp at ha

theorem textOkB_textP (r : List Char) : textOkB (textP r).1 = true := by
  unfold textP textOkB
  simp only [List.all_eq_true]
  intro c hc
  exact mem_takeWhile_sat isTextChar _ c hc

/-- Dropping leading whitespace does not change where the text pattern
stops, because whitespace characters are themselves text characters. -/
theorem dropWhile_text_skipWs (r : List Char) :
    (skipWs r).dropWhile isTextChar = r.dropWhile isTextChar := by
  unfold skipWs
  induction r with
  | nil => rfl
  | cons c t ih =>
    by_cases hc : isWsChar c = true
    · rw [List.dropWhile_cons_of_pos hc, ih, List.dropWhile_cons_of_pos (ws_isText hc)]
    · rw [List.dropWhile_cons_of_neg (by simpa using hc)]

theorem inlineP_ok (elemP : List Char → Res Element)
    (hel : ∀ r f e r', elemP r = (f, some (e, r')) → elemTextOk e = true)
    (n : Nat) (r : List Char) (f : Option Nat) (ie : Inline) (r' : List Char)
    (h : inlineP elemP n r = (f, some (ie, r'))) : elemTextOk ie.1 = true := by
  unfold inlineP at h
  split at h
  · simp at h
  · rename_i f₀ el r1 he
    split at h
    rename_i g ats r2 ha
    split at h
    · rename_i hh ct r3 ht
      simp only [Prod.mk.injEq, Option.some.injEq] at h
      rcases h with ⟨-, h2, -⟩
      subst h2
      exact hel r f₀ el r1 he
    · simp at h

theorem itemStarP_ok (inP : List Char → Res Inline)
    (hin : ∀ r f ie r', inP r = (f, some (ie, r')) → elemTextOk ie.1 = true) :
    ∀ (m : Nat) (r : List Char) (f : Option Nat) items (r' : List Char),
      itemStarP inP m r = (f, items, r') → childrenTextOk items = true := by
  intro m
  induction m with
  | zero =>
    intro r f items r' h
    unfold itemStarP at h
    simp only [Prod.mk.injEq] at h
    rcases h with ⟨-, h2, -⟩
    subst h2
    rfl
  | succ n ih =>
    intro r f items r' h
    unfold itemStarP at h
    split at h
    · rename_i f₀ hi
      simp only [Prod.mk.injEq] at h
      rcases h with ⟨-, h2, -⟩
      subst h2
      rfl
    · rename_i f₀ el ats ct r1 hi
      split at h
      rename_i t r2 htx
      split at h
      rename_i g items₀ r3 hrec
      simp only [Prod.mk.injEq] at h
      rcases h with ⟨-, h2, -⟩
      subst h2
      have h1 : elemTextOk el = true := hin r f₀ (el, ats, ct) r1 hi
      have h2 : textOkB t = true := by
        have := textOkB_textP r1
        rw [htx] at this
        exact this
      have h3 : childrenTextOk items₀ = true := ih r2 g items₀ r3 hrec
      simp [childrenTextOk, h1, h2, h3]

theorem elementP_ok :
    ∀ (n : Nat) (r : List Char) (f : Option Nat) (e : Element) (r' : List Char),
      elementP n r = (f, some (e, r')) → elemTextOk e = true := by
  intro n
  induction n with
  | zero =>
    intro r f e r' h
    unfold elementP at h
    simp at h
  | succ n ih =>
    intro r f e r' h
    unfold elementP at h
    split at h
    · simp at h
    · rename_i f₀ tg r1 hs
      split at h
      rename_i lead r2 htx
      split at h
      rename_i g items r3 hst
      split at h
      rename_i fin r4 htx2
      simp only [Prod.mk.injEq, Option.some.injEq] at h
      rcases h with ⟨-, h2, -⟩
      subst h2
      have h1 : textOkB lead = true := by
        have := textOkB_textP r1; rw [htx] at this; exact this
      have h2 : textOkB fin = true := by
        have := textOkB_textP r3; rw [htx2] at this; exact this
      have h3 : childrenTextOk items = true :=
        itemStarP_ok (inlineP (elementP n) n)
          (fun r f ie r' hie => inlineP_ok (elementP n) (fun r2 => ih r2) n r f ie r' hie)
          n r2 g items r3 hst
      simp [elemTextOk, h1, h2, h3]

theorem elemsStarP_ok (elemP : List Char → Res Element)
    (hel : ∀ r f e r', elemP r = (f, some (e, r')) → elemTextOk e = true) :
    ∀ (m : Nat) (r : List Char) (f : Option Nat) (es : List Element) (r' : List Char),
      elemsStarP elemP m r = (f, es, r') → ∀ e ∈ es, elemTextOk e = true := by
  intro m
  induction m with
  | zero =>
    intro r f es r' h
    unfold elemsStarP at h
    simp only [Prod.mk.injEq] at h
    rcases h with ⟨-, h2, -⟩
    subst h2
    intro e he
    simp at he
  | succ n ih =>
    intro r f es r' h
    unfold elemsStarP at h
    split at h
    · rename_i f₀ hi
      simp only [Prod.mk.injEq] at h
      rcases h with ⟨-, h2, -⟩
      subst h2
      intro e he
      simp at he
    · rename_i f₀ e₀ r1 hi
      split at h
      rename_i g es₀ r2 hrec
      simp only [Prod.mk.injEq] at h
      rcases h with ⟨-, h2, -⟩
      subst h2
      intro e he
      rcases List.mem_cons.mp he with rfl | he'
      · exact hel r f₀ e r1 hi
      · exact ih r1 g es₀ r2 hrec e he'

/-! ### Entry-point facts: full consumption on success, error-offset bound -/

/-- A successful parse consumes the whole input: after the document closure
stops, only whitespace may remain, and the end-of-input check removes it. -/
theorem parseP_ok_consumed (s : List Char) (es : List Element)
    (h : parseP s = .ok es) : skipWs (docRunP s).2.2 = [] := by
  unfold parseP at h
  split at h
  rename_i f els r1 hd
  split at h
  · rename_i hsk
    rw [hd]
    exact hsk
  · simp at h

theorem length_dropWhile_le' {α : Type} (p : α → Bool) (l : List α) :
    (l.dropWhile p).length ≤ l.length := by
  induction l with
  | nil => simp
  | cons c t ih =>
    rw [List.dropWhile_cons]
    split
    · exact Nat.le_succ_of_le ih
    · exact Nat.le_refl _

/-- The reported error offset is at least the offset at which the run of
top-level elements ended (the furthest failure can only lie at or beyond
the end-of-input check that failed there). -/
theorem parseP_error_ge (s : List Char) (e : Nat)
    (h : parseP s = .error e) : docEndPos s ≤ e := by
  unfold parseP at h
  split at h
  rename_i f els r1 hd
  split at h
  · simp at h
  · rename_i d t hsk
    simp only [Except.error.injEq] at h
    unfold docEndPos
    rw [hd]
    show s.length - r1.length ≤ e
    have h1 : (d :: t).length ≤ r1.length := by
      rw [← hsk]
      exact length_dropWhile_le' isWsChar r1
    cases f with
    | none =>
      simp only at h
      omega
    | some x =>
      simp only at h
      omega

/-! ### Pair backtracking over a consumed equals sign -/

/-- When the attribute key parses, the equals token after it parses, and no
well-formed quoted value follows, the pair production backtracks over the
consumed equals sign and succeeds as a value-less pair, resuming right
after the key. -/
theorem pairP_backtracks (r r1 r2 : List Char) (f g : Option Nat) (k : String)
    (h1 : tagIdP r = (f, some (k, r1)))
    (h2 : tokenP '=' r1 = (g, some ((), r2)))
    (h3 : (valueP r2).2 = none) :
    (pairP r).2 = some (⟨k, none⟩, r1) := by
  rcases hv : valueP r2 with ⟨hh, vv⟩
  rw [hv] at h3
  simp only at h3
  subst h3
  simp [pairP, h1, h2, hv]

/-! ### Symbolic evaluation of a single simple tag -/

theorem tokenP_cons_eq {c : Char} (t : List Char) (hnw : isWsChar c = false) :
    tokenP c (c :: t) = (none, some ((), t)) := by
  unfold tokenP skipWs
  rw [List.dropWhile_cons_of_neg (by simp [hnw])]
  simp

theorem tokenP_nil (c : Char) : tokenP c [] = (some 0, none) := rfl

theorem tagIdP_alpha {c : Char} (t : List Char) (hc : isAlphaChar c = true) :
    tagIdP (c :: t) =
      (none, some ((c :: t.takeWhile isIdChar).asString, t.dropWhile isIdChar)) := by
  unfold tagIdP skipWs
  rw [List.dropWhile_cons_of_neg (by simp [alpha_not_ws hc])]
  simp [hc]

/-- The element parser fails on empty input, whatever positive fuel it has:
the mandatory backslash of tag_start is missing. -/
theorem elementP_nil (k : Nat) : elementP (k + 1) [] = (some 0, none) := by
  simp [elementP, tagStartP, tokenP, skipWs]

theorem itemStarP_nil_of_elem (k m j : Nat) :
    itemStarP (inlineP (elementP (k + 1)) m) (j + 1) [] = (some 0, [], []) := by
  simp [itemStarP, inlineP, elementP_nil k]

theorem textP_nil : textP [] = ("", []) := rfl

/-- Definitional one-step equation of the document closure at positive
fuel: try one element, then continue with the rest of the fuel. -/
theorem elemsStarP_succ (elemP : List Char → Res Element) (n : Nat) (r : List Char) :
    elemsStarP elemP (n + 1) r =
      match elemP r with
      | (f, none) => (f, [], r)
      | (f, some (e, r1)) =>
        match elemsStarP elemP n r1 with
        | (g, es, r2) => (fmin f g, e :: es, r2) := rfl

/-- Evaluation of the element rule on a single simple tag: a valid tag id,
one separating space, then a run of text characters not led by whitespace.
The ws part of tag_start eats the space, the leading text takes all of
the rest, and no inline element nor final text is found. -/
theorem elementP_single_tag (c : Char) (id rest : List Char) (k : Nat)
    (hc : isAlphaChar c = true)
    (hid : ∀ d ∈ id, isIdChar d = true)
    (hrest : ∀ d ∈ rest, isTextChar d = true)
    (hhead : ∀ d, rest.head? = some d → isWsChar d = false) :
    elementP (k + 2) ('\\' :: c :: (id ++ ' ' :: rest)) =
      (some 0, some (Element.mk (c :: id).asString rest.asString [] "", [])) := by
  have h2 : List.takeWhile isIdChar (id ++ ' ' :: rest) = id := by
    rw [takeWhile_append_all isIdChar id (' ' :: rest) hid]
    simp [List.takeWhile_cons, show isIdChar ' ' = false from by decide]
  have h3 : List.dropWhile isIdChar (id ++ ' ' :: rest) = ' ' :: rest := by
    rw [dropWhile_append_all isIdChar id (' ' :: rest) hid]
    rw [List.dropWhile_cons_of_neg (by simp [show isIdChar ' ' = false from by decide])]
  have h1 : skipWs (' ' :: rest) = rest := by
    show List.dropWhile _ _ = _
    rw [List.dropWhile_cons_of_pos (by decide)]
    exact skipWs_of_head rest hhead
  have hts : tagStartP ('\\' :: c :: (id ++ ' ' :: rest)) =
      (none, some ((c :: id).asString, rest)) := by
    have e1 := tokenP_cons_eq (c := '\\') (c :: (id ++ ' ' :: rest)) (by decide)
    have e2 := tagIdP_alpha (c := c) (id ++ ' ' :: rest) hc
    simp only [tagStartP, e1, e2, h2, h3, h1, fmin]
  have htx : textP rest = (rest.asString, []) := by
    unfold textP
    rw [skipWs_of_head rest hhead]
    rw [takeWhile_of_all isTextChar rest hrest, dropWhile_of_all isTextChar rest hrest]
  unfold elementP
  rw [hts]
  simp only [itemStarP_nil_of_elem k (k + 1) k, htx, textP_nil, fmin]

/-! ### The claims -/

/-- C5 (amended): for every tag id (a letter c followed by id-characters id)
and every character run rest containing neither backslash nor pipe and not
beginning with a whitespace character, parsing the input made of a
backslash, the tag id, one space and rest succeeds and yields a Document
with exactly one top-level Element whose tag is the id, whose leading text
equals rest, and which has no children.  (The whitespace restriction on
rest is forced: the ws part of tag_start greedily consumes every
whitespace character after the tag id, so leading whitespace of rest would
be stripped from the leading text, as the counterexample shows.) -/
theorem c5_amended_single_tag (c : Char) (id rest : List Char)
    (hc : isAlphaChar c = true)
    (hid : ∀ d ∈ id, isIdChar d = true)
    (hrest : ∀ d ∈ rest, isTextChar d = true)
    (hhead : ∀ d, rest.head? = some d → isWsChar d = false) :
    parseP ('\\' :: c :: (id ++ ' ' :: rest)) =
      .ok [Element.mk (c :: id).asString rest.asString [] ""] := by
  have hel := elementP_single_tag c id rest
    ('\\' :: c :: (id ++ ' ' :: rest)).length hc hid hrest hhead
  unfold parseP docRunP
  rw [elemsStarP_succ, hel]
  rfl


/-- C5 witness: the amended single-tag theorem applied at the concrete tag
id "w" and text run "hi", each hypothesis discharged by computation. -/
theorem c5_witness :
    (∀ d ∈ String.toList "hi", isTextChar d = true) ∧
    parseP ('\\' :: 'w' :: ([] ++ ' ' :: String.toList "hi")) =
      .ok [Element.mk ('w' :: []).asString (String.toList "hi").asString [] ""] :=
  ⟨by decide,
   c5_amended_single_tag 'w' [] (String.toList "hi") (by decide) (by simp)
     (by decide) (by decide)⟩

/-- C5 counterexample: with tag id "a" and rest = " x" (a run containing
neither backslash nor pipe), the input parses but the leading text is "x",
not rest: the claim as stated fails when rest begins with whitespace. -/
theorem c5_counterexample :
    parseP (String.toList "\\a  x") = .ok [Element.mk "a" "x" [] ""] ∧
    ("x" : String) ≠ " x" :=
  ⟨rfl, by decide⟩

/-- C1: parsing the input of scenario 2 succeeds and returns a Document
with exactly one top-level Element with tag "v" and leading text "1 ",
whose single child is an inline element wrapping an Element with tag "w"
and leading text "hello ", carrying the one attribute Pair with key
"x-occurences" and value "1", closed by the explicit tag "w", and followed
by no trailing text. -/
theorem c1_scenario2_single_attribute :
    parseP (String.toList "\\v 1 \\w hello | x-occurences = \"1\"\\w*") =
      .ok [Element.mk "v" "1 "
        [(Element.mk "w" "hello " [] "", [⟨"x-occurences", some "1"⟩], some "w", "")]
        ""] := rfl

/-- C2 counterexample: on input "k = x" the pair production consumes the
key "k", consumes the "=", fails to find a quoted value, and then
backtracks over the "=": it succeeds as a value-less pair with the input
position reset to just after the key (remaining " = x").  This refutes the
claim that the parser does not backtrack over the consumed "=" (the
furthest-failure record, remaining length 1, marks the failed value
attempt at "x"). -/
theorem c2_counterexample :
    pairP (String.toList "k = x") =
      (some 1, some (⟨"k", none⟩, String.toList " = x")) := rfl

/-- C2 (amended): when an attribute key parses, the "=" token after it
parses, and no well-formed quoted value follows, the pair production
backtracks over the consumed "=" and succeeds as a value-less pair
resuming right after the key; a whole parse containing such an attribute
block still fails, because the leftover "=" can complete neither a further
pair nor the closing tag, as on the input of the second conjunct (error
at offset 17, the position where the value was attempted). -/
theorem c2_amended_pair_backtracks :
    (∀ (r r1 r2 : List Char) (f g : Option Nat) (k : String),
      tagIdP r = (f, some (k, r1)) →
      tokenP '=' r1 = (g, some ((), r2)) →
      (valueP r2).2 = none →
      (pairP r).2 = some (⟨k, none⟩, r1)) ∧
    parseP (String.toList "\\v \\w hello |k = x\\w*") = .error 17 :=
  ⟨fun r r1 r2 f g k h1 h2 h3 => pairP_backtracks r r1 r2 f g k h1 h2 h3, rfl⟩

/-- C2 witness: the amended pair-backtracking statement applied at the
concrete input "k = x", every hypothesis discharged by computation. -/
theorem c2_witness :
    (pairP (String.toList "k = x")).2 =
      some (⟨"k", none⟩, String.toList " = x") :=
  c2_amended_pair_backtracks.1 (String.toList "k = x") (String.toList " = x")
    (String.toList " x") none none "k" rfl rfl rfl

/-- C3 counterexample: parsing the unterminated-value input does fail, but
the reported position is 9 — the offset of the pipe — not the end-of-input
offset (the input length, 22): a top-level element cannot carry an
attribute block, so the pipe is never consumed and the value rule is never
attempted. -/
theorem c3_counterexample :
    parseP (String.toList "\\w hello | x-lemma = \"") = .error 9 ∧
    (9 : Nat) ≠ (String.toList "\\w hello | x-lemma = \"").length :=
  ⟨rfl, by decide⟩

/-- C3 (amended): parsing the input fails with the error at offset 9, which
is exactly where the run of top-level elements ended (the pipe): attributes
attach only to inline elements in the grammar, so for this top-level
element the pipe is unconsumable, and no production ever reaches the
unterminated quote. -/
theorem c3_amended_error_at_pipe :
    parseP (String.toList "\\w hello | x-lemma = \"") = .error 9 ∧
    docEndPos (String.toList "\\w hello | x-lemma = \"") = 9 :=
  ⟨rfl, rfl⟩

/-- C4 counterexample: parsing fails, but the reported position is 8 — the
offset of the "*" — not 7, the offset at which the trailing closing-tag
characters begin. -/
theorem c4_counterexample :
    parseP (String.toList "\\zaln-s\\*") = .error 8 ∧ (8 : Nat) ≠ 7 :=
  ⟨rfl, by decide⟩

/-- C4 (amended): parsing the input fails: the zaln-s element parses and
the element run ends at offset 7, where the mandatory end-of-input check
fails; the reported (furthest) failure position is 8, reached by the
speculative tag_start that consumed the trailing backslash and then failed
to read a tag id at the "*". -/
theorem c4_amended_error_after_backslash :
    parseP (String.toList "\\zaln-s\\*") = .error 8 ∧
    docEndPos (String.toList "\\zaln-s\\*") = 7 :=
  ⟨rfl, rfl⟩

/-- C6 counterexample: on an input whose trailing garbage begins with a
backslash, the element run ends at offset 4 but the parse fails with the
reported position 5: the offsets differ, refuting the exactness part of
the claim. -/
theorem c6_counterexample :
    parseP (String.toList "\\a x\\") = .error 5 ∧
    docEndPos (String.toList "\\a x\\") = 4 ∧ (5 : Nat) ≠ 4 :=
  ⟨rfl, rfl, by decide⟩

/-- C6 (amended): the parse never silently ignores unconsumed trailing
input: on success, nothing but whitespace followed the parsed elements and
the end-of-input check consumed it; on failure, the reported offset is at
least the offset where the run of top-level elements ended — it can lie
strictly beyond it when the trailing characters begin with a parsable
prefix such as a backslash. -/
theorem c6_amended_no_silent_trailing :
    (∀ (s : List Char) (es : List Element),
      parseP s = .ok es → skipWs (docRunP s).2.2 = []) ∧
    (∀ (s : List Char) (e : Nat), parseP s = .error e → docEndPos s ≤ e) :=
  ⟨parseP_ok_consumed, parseP_error_ge⟩

/-- C6 witness: the amended statement applied at two concrete inputs, a
successful parse consuming everything and a failing parse whose error
offset 5 is bounded below by the element-run end 4. -/
theorem c6_witness :
    skipWs (docRunP (String.toList "\\a x")).2.2 = [] ∧
    docEndPos (String.toList "\\a x\\") ≤ 5 :=
  ⟨c6_amended_no_silent_trailing.1 (String.toList "\\a x")
      [Element.mk "a" "x" [] ""] rfl,
   c6_amended_no_silent_trailing.2 (String.toList "\\a x\\") 5 rfl⟩

/-- C7: an attribute with an empty quoted value parses to a Pair whose
value is the present empty string, while the same attribute with no "=" at
all parses to a Pair with an absent value, and the two values are
distinct. -/
theorem c7_empty_value_distinct :
    parseP (String.toList "\\v 1 \\w hello | x-lemma = \"\"\\w*") =
      .ok [Element.mk "v" "1 "
        [(Element.mk "w" "hello " [] "", [⟨"x-lemma", some ""⟩], some "w", "")]
        ""] ∧
    parseP (String.toList "\\v 1 \\w hello | x-lemma\\w*") =
      .ok [Element.mk "v" "1 "
        [(Element.mk "w" "hello " [] "", [⟨"x-lemma", none⟩], some "w", "")]
        ""] ∧
    (some "" : Option String) ≠ none :=
  ⟨rfl, rfl, by decide⟩

/-- C9: in every successfully parsed Document every text node (leading,
child-trailing or ending text of any element) contains neither a backslash
nor a pipe character; and the text rule is total: at any position it
succeeds, consuming exactly the longest (possibly empty) prefix of
characters excluding those two, i.e. leaving exactly the dropWhile
remainder. -/
theorem c9_text_invariant :
    (∀ (s : List Char) (es : List Element),
      parseP s = .ok es → ∀ e ∈ es, elemTextOk e = true) ∧
    (∀ r : List Char, (textP r).2 = r.dropWhile isTextChar) := by
  constructor
  · intro s es h e he
    unfold parseP at h
    split at h
    rename_i f els r1 hd
    split at h
    · simp only [Except.ok.injEq] at h
      subst h
      unfold docRunP at hd
      exact elemsStarP_ok (elementP (s.length + 2))
        (fun r f e r' hh => elementP_ok (s.length + 2) r f e r' hh)
        (s.length + 2) s f els r1 hd e he
    · simp at h
  · intro r
    exact dropWhile_text_skipWs r

/-- C9 witness: the invariant applied to the concrete parse of scenario 2,
and the text-rule consumption law applied at a concrete position. -/
theorem c9_witness :
    elemTextOk (Element.mk "v" "1 "
      [(Element.mk "w" "hello " [] "", [⟨"x-occurences", some "1"⟩], some "w", "")]
      "") = true ∧
    (textP (String.toList "ab|cd")).2 = (String.toList "ab|cd").dropWhile isTextChar :=
  ⟨c9_text_invariant.1 (String.toList "\\v 1 \\w hello | x-occurences = \"1\"\\w*")
      [Element.mk "v" "1 "
        [(Element.mk "w" "hello " [] "", [⟨"x-occurences", some "1"⟩], some "w", "")]
        ""] rfl _ (List.mem_cons_self _ _),
   c9_text_invariant.2 (String.toList "ab|cd")⟩

end UsfmPeg
